import Mathlib

/-!
Verification of the `umd2.py` streaming pipeline (tokenizer, frequency
tracker, displacement integrator, smoothing filters, environmental
compensator, angle converter, emission policy, spectral buffer).

Numbers are modelled exactly as rationals; Python `math.asin` is abstracted
as an arbitrary function parameter since no claim depends on its values.
-/

namespace Umd2

/-- Python `int()` applied to a number: truncation toward zero.
For a rational `q` with positive denominator, `Int.tdiv` of numerator by
denominator is exactly truncation toward zero. -/
def intTrunc (q : ℚ) : ℤ := Int.tdiv q.num (q.den : ℤ)

/-- A numeral matched by the value group of `Tok_RE`, `-?\d+(?:\.\d+)?`:
optional minus sign, integer digits, and optionally a decimal point followed
by fractional digits.  `frac = some (d, k)` records `k` fractional digit
places spelling the natural number `d` (so the matched text contains a
decimal point); `frac = none` means no decimal point. -/
structure Numeral where
  neg : Bool
  intPart : ℕ
  frac : Option (ℕ × ℕ)
deriving DecidableEq

/-- The number a `Numeral` denotes.  In `parse_line_tokens` the value text is
converted with float(val) when the text has a dot, else int(val); both
yield this number (floats are modelled exactly as rationals). -/
def Numeral.val (n : Numeral) : ℚ :=
  let mag : ℚ := (n.intPart : ℚ) +
    (match n.frac with
     | none => 0
     | some dk => (dk.1 : ℚ) / (10 ^ dk.2))
  if n.neg then -mag else mag

/-- Whether the matched numeral text contains a decimal point. -/
def Numeral.hasDot (n : Numeral) : Bool := n.frac.isSome

/-- One stripped input line, classified the way `main` does.  A line fully
matching `HeaderFS_RE` (`Sample Frequency = <num> Hz`, case-insensitive) is
`header ip frac`, carrying the captured unsigned numeral `[0-9]+(?:\.[0-9]+)?`.
Such a line contains no colon, hence no `Tok_RE` match.  Every other line is
`data toks`, the ordered list of `Tok_RE` matches `key:value` (a blank or
match-free line is `data []`). -/
inductive Line where
  | header (ip : ℕ) (frac : Option (ℕ × ℕ))
  | data (toks : List (String × Numeral))
deriving DecidableEq

/-- The float value `maybe_extract_fs` returns for a header line
(`float(m.group(1))`, a nonnegative numeral). -/
def headerVal (ip : ℕ) (frac : Option (ℕ × ℕ)) : ℚ :=
  Numeral.val ⟨false, ip, frac⟩

/-- `parse_line_tokens`: each regex match `(key, val)` is stored into a dict
under the uppercased key with value float(val) when the text has a dot, else int(val)
(the `int()` parse cannot fail, since the regex only matches digit strings).
The dict is modelled by the association list in match order; a later match
for the same key overwrites an earlier one, so lookups take the last match. -/
def parse_line_tokens (toks : List (String × Numeral)) : List (String × ℚ) :=
  toks.map (fun kv => (kv.1.toUpper, kv.2.val))

/-- Python dict lookup on the association list produced by
`parse_line_tokens`: the last binding of a key wins. -/
def dictGet (d : List (String × ℚ)) (k : String) : Option ℚ :=
  ((d.filter (fun kv => kv.1 == k)).getLast?).map Prod.snd

/-- Primary-count extraction (`main`, lines 236-243): `DIFF` if present,
else `D`, else the line is skipped. -/
def primary (d : List (String × ℚ)) : Option ℚ :=
  match dictGet d "DIFF" with
  | some v => some v
  | none => dictGet d "D"

/-- `clamp` from the source: `lo if val < lo else hi if val > hi else val`. -/
def clamp (val lo hi : ℚ) : ℚ :=
  if val < lo then lo else if val > hi then hi else val

/-- Emission mode (`--emit`). -/
inductive EmitMode where
  | every
  | onstep
deriving DecidableEq

/-- Computation mode (`--mode`). -/
inductive Mode where
  | displacement
  | angle
deriving DecidableEq

/-- Spectral signal selector (`--fft-signal`). -/
inductive FftSignal where
  | x
  | v
deriving DecidableEq

/-- The resolved configuration object (`args` from `parse_args`), restricted
to the fields the pipeline reads.  `numpy_available` models whether
`import numpy` succeeds inside the loop. -/
structure Config where
  fs : ℚ := 0
  emit : EmitMode := .every
  decimate : ℤ := 1
  stepnm : Option ℚ := none
  lambda_nm : ℚ := 632991 / 1000
  scale_div : ℤ := 8
  startnm : ℚ := 0
  straight_mult : ℚ := 1
  mode : Mode := .displacement
  angle_norm_nm : ℚ := 1
  angle_corr : ℚ := 1
  ema_alpha : ℚ := 0
  ma_window : ℤ := 0
  env_temp : Option ℚ := none
  env_temp0 : Option ℚ := none
  env_ktemp : ℚ := 0
  env_press : Option ℚ := none
  env_press0 : Option ℚ := none
  env_kpress : ℚ := 0
  env_hum : Option ℚ := none
  env_hum0 : Option ℚ := none
  env_khum : ℚ := 0
  fft_len : ℤ := 0
  fft_every : ℤ := 0
  fft_signal : FftSignal := .x
  enable_xy : Bool := false
  numpy_available : Bool := true
deriving DecidableEq

/-- `compute_step_nm`: explicit override if set, else wavelength divided by
`max(1, int(scale_div))`. -/
def compute_step_nm (args : Config) : ℚ :=
  match args.stepnm with
  | some s => s
  | none => args.lambda_nm / ((max 1 args.scale_div : ℤ) : ℚ)

/-- `apply_env`: multiplicative scale accumulated over the temperature,
pressure and humidity triples; a triple contributes only when current and
reference are both present and its coefficient is nonzero. -/
def apply_env (x_nm : ℚ) (args : Config) : ℚ :=
  let s1 : ℚ :=
    match args.env_temp, args.env_temp0 with
    | some t, some t0 => if args.env_ktemp ≠ 0 then 1 + args.env_ktemp * (t - t0) else 1
    | _, _ => 1
  let s2 : ℚ :=
    match args.env_press, args.env_press0 with
    | some pr, some pr0 => if args.env_kpress ≠ 0 then 1 + args.env_kpress * (pr - pr0) else 1
    | _, _ => 1
  let s3 : ℚ :=
    match args.env_hum, args.env_hum0 with
    | some h, some h0 => if args.env_khum ≠ 0 then 1 + args.env_khum * (h - h0) else 1
    | _, _ => 1
  x_nm * (s1 * s2 * s3)

/-- `angle_from_displacement`: returns 0 outright when the normalization
length is 0 (the division is never evaluated); otherwise
`asin(clamp(x/norm, -1, 1)) * corr * 57.296`.  `asin` abstracts
`math.asin`. -/
def angle_from_displacement (asin : ℚ → ℚ) (x_nm : ℚ) (args : Config) : ℚ :=
  if args.angle_norm_nm = 0 then 0
  else asin (clamp (x_nm / args.angle_norm_nm) (-1) 1) * args.angle_corr * (57296 / 1000)

/-- The mutable stream state of the loop in `main`. -/
structure State where
  fs_hz : ℚ
  prevD : Option ℤ
  x_nm : ℚ
  ema_x : Option ℚ
  ma_buf : List ℚ
  emitted : ℕ
  fft_buf : List ℚ
deriving DecidableEq

/-- The state at loop entry: frequency from the override when positive,
cumulative displacement at the configured baseline, everything else empty. -/
def initState (args : Config) : State :=
  { fs_hz := if args.fs > 0 then args.fs else 0
    prevD := none
    x_nm := args.startnm
    ema_x := none
    ma_buf := []
    emitted := 0
    fft_buf := [] }

/-- One output record (the `rec` dict / CSV row). -/
structure Record where
  seq : ℤ
  fs_hz : ℚ
  D : ℤ
  deltaD : ℤ
  step_nm : ℚ
  x_nm : ℚ
  v_nm_s : ℚ
  x_nm_ema : Option ℚ
  x_nm_ma : Option ℚ
  x_nm_env : ℚ
  angle_deg : Option ℚ
  x2 : Option ℚ
  y2 : Option ℚ
deriving DecidableEq

/-- The newest `w` entries of a list: exactly what a `deque(maxlen=w)` holds
after appending the elements of the list in order to an initially empty deque. -/
def lastN (w : ℕ) (l : List ℚ) : List ℚ := l.drop (l.length - w)

/-- Everything `main` computes for one extracted primary count `D`, before
the emission gates: frequency fallback, delta, step, cumulative displacement,
velocity, smoothing updates, environmental compensation and angle.
`compute_step_nm` is evaluated once before the loop in the source; since the
configuration is immutable, inlining it here is equal.  The moving-average
deque was created with `maxlen = ma_window` whenever `ma_window > 0`, so the
mid-run rebuild branch (`maxlen != ma_window`) never fires and an append
keeps the newest `ma_window` entries. -/
structure Sample where
  fs1 : ℚ
  dD : ℤ
  dx : ℚ
  x : ℚ
  v : ℚ
  ema : Option ℚ
  emaRep : Option ℚ
  maBuf : List ℚ
  maRep : Option ℚ
  env : ℚ
  angle : Option ℚ
deriving DecidableEq

def computeSample (asin : ℚ → ℚ) (args : Config) (st : State) (D : ℤ) : Sample :=
  let fs1 : ℚ := if st.fs_hz ≤ 0 then 1000 else st.fs_hz
  let dD : ℤ := match st.prevD with | none => 0 | some p => D - p
  let dx : ℚ := compute_step_nm args * (dD : ℚ)
  let x : ℚ := (st.x_nm + dx) * args.straight_mult
  let v : ℚ := dx * fs1
  let ema : Option ℚ :=
    if args.ema_alpha > 0 then
      some (match st.ema_x with
            | none => x
            | some e => args.ema_alpha * x + (1 - args.ema_alpha) * e)
    else st.ema_x
  let emaRep : Option ℚ := if args.ema_alpha > 0 then ema else none
  let maBuf : List ℚ :=
    if args.ma_window > 0 then lastN args.ma_window.toNat (st.ma_buf ++ [x]) else st.ma_buf
  let maRep : Option ℚ :=
    if args.ma_window > 0 then some (maBuf.sum / (maBuf.length : ℚ)) else none
  let env : ℚ := apply_env x args
  let angle : Option ℚ :=
    if args.mode = .angle then some (angle_from_displacement asin x args) else none
  ⟨fs1, dD, dx, x, v, ema, emaRep, maBuf, maRep, env, angle⟩

/-- Emission-mode gate (`args.emit`): `every` always passes, `onstep` passes
only on a nonzero delta. -/
def modeGate (args : Config) (dD : ℤ) : Bool :=
  match args.emit with
  | .every => true
  | .onstep => dD != 0

/-- The accepted-sample counter after the mode gate for a sample with delta
`dD`: it increments exactly when the mode gate passes, before the decimation
gate is evaluated. -/
def emittedAfter (args : Config) (st : State) (dD : ℤ) : ℕ :=
  if modeGate args dD = true then st.emitted + 1 else st.emitted

/-- The full emission decision (`keep`) for a sample with delta `dD`: mode
gate, then (only when `decimate > 1`) the test `emitted % decimate == 0` on
the already-incremented counter. -/
def keepSample (args : Config) (st : State) (dD : ℤ) : Bool :=
  modeGate args dD &&
    (decide (args.decimate ≤ 1) ||
     decide (Int.emod ((emittedAfter args st dD : ℕ) : ℤ) args.decimate = 0))

/-- Processing of one line that yielded a primary count `D` (with sequence
token `N` and optional second channel): compute the sample, apply the two
emission gates (the accepted-sample counter increments at the mode gate,
before the decimation test `emitted % decimate`), and on a kept record
append to the spectral buffer exactly when FFT is configured, numpy is
available and the counter is a multiple of `fft_every` (a dropped sample
`continue`s before the FFT block, hence the `keep` conjunct). -/
def stepData (asin : ℚ → ℚ) (args : Config) (st : State) (D N : ℤ)
    (x2 y2 : Option ℚ) : Option Record × State :=
  let s := computeSample asin args st D
  let emitted1 := emittedAfter args st s.dD
  let keep := keepSample args st s.dD
  let fb : List ℚ :=
    if keep = true ∧ 0 < args.fft_len ∧ 0 < args.fft_every ∧ args.numpy_available = true ∧
       Int.emod (emitted1 : ℤ) args.fft_every = 0 then
      st.fft_buf ++ [match args.fft_signal with | .x => s.x | .v => s.v]
    else st.fft_buf
  let st1 : State :=
    { fs_hz := s.fs1, prevD := some D, x_nm := s.x, ema_x := s.ema,
      ma_buf := s.maBuf, emitted := emitted1, fft_buf := fb }
  (if keep = true then
    some ⟨N, s.fs1, D, s.dD, s.dx, s.x, s.v, s.emaRep, s.maRep, s.env, s.angle, x2, y2⟩
   else none, st1)

/-- One iteration of the loop of `main` on one line.  A header line with a nonzero
captured value overwrites the frequency and yields nothing; a zero-valued
header is falsy in `if fs_found:` and falls through to tokenization, which
finds no `key:value` pair on a header line (it has no colon), so the line is
skipped with no state change.  A data line without `DIFF` or `D` is skipped
with no state change. -/
def stepLine (asin : ℚ → ℚ) (args : Config) (st : State) (l : Line) :
    Option Record × State :=
  match l with
  | .header ip frac =>
      let w := headerVal ip frac
      if w ≠ 0 then (none, { st with fs_hz := w }) else (none, st)
  | .data toks =>
      let d := parse_line_tokens toks
      match primary d with
      | none => (none, st)
      | some q =>
          let D := intTrunc q
          let N := intTrunc ((dictGet d "N").getD 0)
          let x2 := if args.enable_xy then dictGet d "X" else none
          let y2 := if args.enable_xy then dictGet d "Y" else none
          stepData asin args st D N x2 y2

/-- The state after one line. -/
def stepState (asin : ℚ → ℚ) (args : Config) (st : State) (l : Line) : State :=
  (stepLine asin args st l).2

/-- Run the loop over a list of lines, collecting the emitted records and the
final state. -/
def runLines (asin : ℚ → ℚ) (args : Config) : State → List Line → List Record × State
  | st, [] => ([], st)
  | st, l :: ls =>
      let p := stepLine asin args st l
      let rest := runLines asin args p.2 ls
      (p.1.toList ++ rest.1, rest.2)

/-- Whether a line yields a primary count (and hence a processed sample). -/
def countsLine (l : Line) : Bool :=
  match l with
  | .header _ _ => false
  | .data toks => (primary (parse_line_tokens toks)).isSome

/-- The per-line cumulative-displacement contribution: for a line yielding a
primary count, the new cumulative value; otherwise nothing. -/
def lineX (asin : ℚ → ℚ) (args : Config) (st : State) : Line → List ℚ
  | .header _ _ => []
  | .data toks =>
      match primary (parse_line_tokens toks) with
      | none => []
      | some q => [(computeSample asin args st (intTrunc q)).x]

/-- The trace of cumulative-displacement values over a run, one entry per
processed sample. -/
def xTrace (asin : ℚ → ℚ) (args : Config) : State → List Line → List ℚ
  | _, [] => []
  | st, l :: ls =>
      lineX asin args st l ++ xTrace asin args (stepState asin args st l) ls

/-- The per-line displacement step `dx`, one entry per processed sample. -/
def lineDx (asin : ℚ → ℚ) (args : Config) (st : State) : Line → List ℚ
  | .header _ _ => []
  | .data toks =>
      match primary (parse_line_tokens toks) with
      | none => []
      | some q => [(computeSample asin args st (intTrunc q)).dx]

/-- The trace of per-sample displacement steps over a run. -/
def dxTrace (asin : ℚ → ℚ) (args : Config) : State → List Line → List ℚ
  | _, [] => []
  | st, l :: ls =>
      lineDx asin args st l ++ dxTrace asin args (stepState asin args st l) ls

/-- The integrator recurrence exactly as the specification words it:
`cumulative = (cumulative + dx) * straightnessMultiplier`, applied once per
processed sample. -/
def specCumulativeRecurrence (m : ℚ) : ℚ → List ℚ → ℚ
  | x, [] => x
  | x, d :: ds => specCumulativeRecurrence m ((x + d) * m) ds

/-- The names bound at module top level by the import block of `umd2.py`
(lines 36-43).  `os` is referenced at line 212, `os.path.exists(args.log)`,
but is not among them. -/
def umd2_top_level_imports : List String :=
  ["sys", "re", "argparse", "json", "csv", "math", "deque",
   "Optional", "Tuple", "Iterator", "List"]

/-! ### Basic unfolding lemmas -/

lemma stepData_snd (asin : ℚ → ℚ) (args : Config) (st : State) (D N : ℤ)
    (x2 y2 : Option ℚ) :
    (stepData asin args st D N x2 y2).2 =
      { fs_hz := (computeSample asin args st D).fs1
        prevD := some D
        x_nm := (computeSample asin args st D).x
        ema_x := (computeSample asin args st D).ema
        ma_buf := (computeSample asin args st D).maBuf
        emitted := emittedAfter args st (computeSample asin args st D).dD
        fft_buf :=
          if keepSample args st (computeSample asin args st D).dD = true ∧
             0 < args.fft_len ∧ 0 < args.fft_every ∧ args.numpy_available = true ∧
             Int.emod ((emittedAfter args st (computeSample asin args st D).dD : ℕ) : ℤ)
               args.fft_every = 0 then
            st.fft_buf ++ [match args.fft_signal with
                           | .x => (computeSample asin args st D).x
                           | .v => (computeSample asin args st D).v]
          else st.fft_buf } := rfl

lemma stepData_fst (asin : ℚ → ℚ) (args : Config) (st : State) (D N : ℤ)
    (x2 y2 : Option ℚ) :
    (stepData asin args st D N x2 y2).1 =
      (if keepSample args st (computeSample asin args st D).dD = true then
        some ⟨N, (computeSample asin args st D).fs1, D, (computeSample asin args st D).dD,
              (computeSample asin args st D).dx, (computeSample asin args st D).x,
              (computeSample asin args st D).v, (computeSample asin args st D).emaRep,
              (computeSample asin args st D).maRep, (computeSample asin args st D).env,
              (computeSample asin args st D).angle, x2, y2⟩
       else none) := rfl

lemma stepLine_data_none (asin : ℚ → ℚ) (args : Config) (st : State)
    (toks : List (String × Numeral)) (h : primary (parse_line_tokens toks) = none) :
    stepLine asin args st (.data toks) = (none, st) := by
  simp only [stepLine, h]

lemma stepLine_data_some (asin : ℚ → ℚ) (args : Config) (st : State)
    (toks : List (String × Numeral)) (q : ℚ)
    (h : primary (parse_line_tokens toks) = some q) :
    stepLine asin args st (.data toks) =
      stepData asin args st (intTrunc q)
        (intTrunc ((dictGet (parse_line_tokens toks) "N").getD 0))
        (if args.enable_xy then dictGet (parse_line_tokens toks) "X" else none)
        (if args.enable_xy then dictGet (parse_line_tokens toks) "Y" else none) := by
  simp only [stepLine, h]

lemma stepLine_header (asin : ℚ → ℚ) (args : Config) (st : State) (ip : ℕ)
    (frac : Option (ℕ × ℕ)) :
    stepLine asin args st (.header ip frac) =
      (none, if headerVal ip frac ≠ 0 then { st with fs_hz := headerVal ip frac } else st) := by
  simp only [stepLine]
  split <;> rfl

lemma runLines_cons_snd (asin : ℚ → ℚ) (args : Config) (st : State) (l : Line)
    (ls : List Line) :
    (runLines asin args st (l :: ls)).2 =
      (runLines asin args (stepState asin args st l) ls).2 := rfl

lemma runLines_cons_fst (asin : ℚ → ℚ) (args : Config) (st : State) (l : Line)
    (ls : List Line) :
    (runLines asin args st (l :: ls)).1 =
      (stepLine asin args st l).1.toList ++
        (runLines asin args (stepState asin args st l) ls).1 := rfl

/-! ### Claim theorems -/

/-- Counterexample for claim C3: the claim asserts a header line whose number is 0
also overwrites the frequency.  In the code `if fs_found:` is falsy for the
value `0.0`, so after the line `Sample Frequency = 0 Hz` the frequency keeps
its configured value 5 instead of becoming the header value 0. -/
theorem header_zero_does_not_overwrite :
    (let args : Config := { fs := 5 }
     (runLines (fun q => q) args (initState args) [Line.header 0 none]).2.fs_hz = 5) ∧
    headerVal 0 none = 0 ∧ (5 : ℚ) ≠ 0 := by
  with_unfolding_all decide

/-- Amended claim C3: a header line with a nonzero number overwrites the current
sampling frequency with that number, regardless of any configured override
(the stored frequency is replaced unconditionally), and yields no record; a
header line whose number is 0 leaves the whole state unchanged and likewise
yields no record and no data tokens. -/
theorem header_updates_fs (asin : ℚ → ℚ) (args : Config) (st : State) (ip : ℕ)
    (frac : Option (ℕ × ℕ)) :
    stepLine asin args st (.header ip frac) =
      (none, if headerVal ip frac ≠ 0 then { st with fs_hz := headerVal ip frac } else st) :=
  stepLine_header asin args st ip frac

/-- Claim C5: whenever the previous primary count is absent (as it is at stream
start and until the first line yielding a primary count), the computed
sample has count delta 0 and velocity 0, for every configuration, count
value and frequency; moreover lines yielding no primary count never change
`prevD`, so the first counted line is indeed computed from `prevD = none`. -/
theorem first_sample_delta_velocity_zero (asin : ℚ → ℚ) (args : Config) (st : State)
    (D : ℤ) (h : st.prevD = none) :
    (computeSample asin args st D).dD = 0 ∧ (computeSample asin args st D).v = 0 ∧
    ∀ l, countsLine l = false → (stepState asin args st l).prevD = st.prevD := by
  refine ⟨by simp [computeSample, h], by simp [computeSample, h], ?_⟩
  intro l hl
  cases l with
  | header ip frac =>
      rw [stepState, stepLine_header]
      split <;> rfl
  | data toks =>
      rw [countsLine] at hl
      rw [stepState, stepLine_data_none]
      cases hp : primary (parse_line_tokens toks) with
      | none => rfl
      | some q => rw [hp] at hl; simp at hl

/-- Witness for C5 at a concrete input. -/
theorem first_sample_delta_velocity_zero_witness :
    (computeSample (fun q => q) {} (initState {}) 42).dD = 0 ∧
    (computeSample (fun q => q) {} (initState {}) 42).v = 0 ∧
    ∀ l, countsLine l = false →
      (stepState (fun q => q) {} (initState {}) l).prevD = (initState {}).prevD :=
  first_sample_delta_velocity_zero (fun q => q) {} (initState {}) 42 rfl

/-- Claim C8: a non-header line containing neither a `DIFF` nor a `D` token yields
no record and leaves the entire stream state (frequency, previous count,
cumulative displacement, EMA accumulator, moving-average history, counter,
spectral buffer) unchanged; no error is possible. -/
theorem no_primary_count_skips_line (asin : ℚ → ℚ) (args : Config) (st : State)
    (toks : List (String × Numeral)) (h : primary (parse_line_tokens toks) = none) :
    stepLine asin args st (.data toks) = (none, st) :=
  stepLine_data_none asin args st toks h

/-- Witness for C8: a line carrying only `Q:1` is skipped with the state
intact. -/
theorem no_primary_count_skips_line_witness :
    stepLine (fun q => q) {} (initState {}) (.data [("Q", ⟨false, 1, none⟩)]) =
      (none, initState {}) :=
  no_primary_count_skips_line (fun q => q) {} (initState {}) _
    (by with_unfolding_all decide)

/-- Claim C9: in angle mode, a zero normalization length short-circuits to angle 0
before any division; a nonzero normalization length gives
`asin(clamp(x/norm, -1, 1)) * corr * 57.296`, and the clamped `asin`
argument always lies in `[-1, 1]`. -/
theorem angle_zero_norm_safe (asin : ℚ → ℚ) (x : ℚ) (args : Config) :
    (args.angle_norm_nm = 0 → angle_from_displacement asin x args = 0) ∧
    (args.angle_norm_nm ≠ 0 →
      angle_from_displacement asin x args =
        asin (clamp (x / args.angle_norm_nm) (-1) 1) * args.angle_corr * (57296 / 1000)) ∧
    (-1 ≤ clamp (x / args.angle_norm_nm) (-1) 1 ∧ clamp (x / args.angle_norm_nm) (-1) 1 ≤ 1) := by
  refine ⟨fun h => by simp [angle_from_displacement, h], fun h => by simp [angle_from_displacement, h], ?_, ?_⟩ <;>
    · unfold clamp
      split_ifs <;> linarith

/-- Witness for C9 at concrete inputs: normalization length 0 yields
angle 0. -/
theorem angle_zero_norm_safe_witness :
    angle_from_displacement (fun q => q) 5 ({ angle_norm_nm := 0 } : Config) = 0 :=
  (angle_zero_norm_safe (fun q => q) 5 ({ angle_norm_nm := 0 } : Config)).1 rfl

lemma stepState_header_x (asin : ℚ → ℚ) (args : Config) (st : State) (ip : ℕ)
    (frac : Option (ℕ × ℕ)) :
    (stepState asin args st (.header ip frac)).x_nm = st.x_nm := by
  rw [stepState, stepLine_header]
  split <;> rfl

lemma stepState_data_none (asin : ℚ → ℚ) (args : Config) (st : State)
    (toks : List (String × Numeral)) (h : primary (parse_line_tokens toks) = none) :
    stepState asin args st (.data toks) = st := by
  rw [stepState, stepLine_data_none asin args st toks h]

lemma stepState_data_some (asin : ℚ → ℚ) (args : Config) (st : State)
    (toks : List (String × Numeral)) (q : ℚ)
    (h : primary (parse_line_tokens toks) = some q) :
    stepState asin args st (.data toks) =
      (stepData asin args st (intTrunc q)
        (intTrunc ((dictGet (parse_line_tokens toks) "N").getD 0))
        (if args.enable_xy then dictGet (parse_line_tokens toks) "X" else none)
        (if args.enable_xy then dictGet (parse_line_tokens toks) "Y" else none)).2 := by
  rw [stepState, stepLine_data_some asin args st toks q h]

/-- Claim C4: the cumulative displacement obeys
`cumulative = (cumulative + step * deltaD) * straightnessMultiplier` on every
processed sample — the multiplier hits the whole accumulated value (baseline
included, since the accumulator starts at the configured baseline), not just
the increment — and consequently a whole run computes exactly the compounding
recurrence `specCumulativeRecurrence` over its per-sample steps. -/
theorem cumulative_recurrence_compounds (asin : ℚ → ℚ) (args : Config) :
    (∀ st D, (computeSample asin args st D).x =
      (st.x_nm + compute_step_nm args * (((computeSample asin args st D).dD : ℤ) : ℚ)) *
        args.straight_mult) ∧
    (∀ st ls, (runLines asin args st ls).2.x_nm =
      specCumulativeRecurrence args.straight_mult st.x_nm (dxTrace asin args st ls)) := by
  refine ⟨fun st D => rfl, fun st ls => ?_⟩
  induction ls generalizing st with
  | nil => rfl
  | cons l ls ih =>
      rw [runLines_cons_snd, ih, dxTrace]
      cases l with
      | header ip frac =>
          have hx : (stepState asin args st (.header ip frac)).x_nm = st.x_nm :=
            stepState_header_x asin args st ip frac
          simp only [lineDx, List.nil_append, hx]
      | data toks =>
          cases hp : primary (parse_line_tokens toks) with
          | none =>
              have hst := stepState_data_none asin args st toks hp
              simp only [lineDx, hp, List.nil_append, hst]
          | some q =>
              have hst := stepState_data_some asin args st toks q hp
              simp only [lineDx, hp, List.cons_append, List.nil_append, hst, stepData_snd,
                specCumulativeRecurrence]
              rfl

/-- Claim C6: the accepted-sample counter increments exactly on mode-gate-passing
samples, before decimation; a sample is forwarded iff it passed the mode gate
and either the factor is ≤ 1 or the incremented counter is a multiple of the
factor; and an on-step run over counts 0..7 (7 nonzero deltas) with factor 3
forwards exactly 2 records. -/
theorem emission_policy_gates (asin : ℚ → ℚ) (args : Config) (st : State) (D N : ℤ)
    (x2 y2 : Option ℚ) :
    ((stepData asin args st D N x2 y2).2.emitted =
      emittedAfter args st (computeSample asin args st D).dD) ∧
    ((stepData asin args st D N x2 y2).1.isSome = true ↔
      (modeGate args (computeSample asin args st D).dD = true ∧
       (args.decimate ≤ 1 ∨
        Int.emod ((emittedAfter args st (computeSample asin args st D).dD : ℕ) : ℤ)
          args.decimate = 0))) ∧
    (runLines (fun q => q) ({ emit := .onstep, decimate := 3 } : Config)
        (initState ({ emit := .onstep, decimate := 3 } : Config))
        ((List.range 8).map (fun i => Line.data [("D", ⟨false, i, none⟩)]))).1.length = 2 := by
  refine ⟨rfl, ?_, by with_unfolding_all decide⟩
  rw [stepData_fst]
  have hiff : keepSample args st (computeSample asin args st D).dD = true ↔
      (modeGate args (computeSample asin args st D).dD = true ∧
       (args.decimate ≤ 1 ∨
        Int.emod ((emittedAfter args st (computeSample asin args st D).dD : ℕ) : ℤ)
          args.decimate = 0)) := by
    simp [keepSample, Bool.and_eq_true, Bool.or_eq_true, decide_eq_true_iff]
  rw [← hiff]
  by_cases h : keepSample args st (computeSample asin args st D).dD = true <;> simp [h]

/-- Claim C10: a `DIFF`/`D` token whose numeral carries a decimal point is parsed
as its (exact) numeric value and truncated toward zero to form the primary
count, and the line is processed as a normal sample: the previous-count state
advances to that truncation, any emitted record carries it, `12.9` gives 12,
`-12.9` gives -12, and with the default configuration such lines each emit a
record with those counts. -/
theorem dotted_primary_truncates (asin : ℚ → ℚ) (args : Config) (st : State)
    (toks : List (String × Numeral)) (q : ℚ)
    (h : primary (parse_line_tokens toks) = some q) :
    ((stepLine asin args st (.data toks)).2.prevD = some (intTrunc q) ∧
     ∀ r, (stepLine asin args st (.data toks)).1 = some r → r.D = intTrunc q) ∧
    (intTrunc (Numeral.val ⟨false, 12, some (9, 1)⟩) = 12 ∧
     intTrunc (Numeral.val ⟨true, 12, some (9, 1)⟩) = -12 ∧
     Numeral.hasDot ⟨false, 12, some (9, 1)⟩ = true) ∧
    ((runLines (fun v => v) {} (initState {})
        [.data [("D", ⟨false, 12, some (9, 1)⟩)]]).1.map Record.D = [12] ∧
     (runLines (fun v => v) {} (initState {})
        [.data [("D", ⟨true, 12, some (9, 1)⟩)]]).1.map Record.D = [-12]) := by
  refine ⟨⟨?_, ?_⟩, by with_unfolding_all decide, by with_unfolding_all decide⟩
  · rw [stepLine_data_some asin args st toks q h, stepData_snd]
  · rw [stepLine_data_some asin args st toks q h, stepData_fst]
    intro r hr
    split at hr
    · cases hr; rfl
    · simp at hr

/-- Witness for C10: processing `D:12.9` advances the previous-count state
to the truncated value. -/
theorem dotted_primary_truncates_witness :
    (stepLine (fun v => v) {} (initState {})
      (.data [("D", ⟨false, 12, some (9, 1)⟩)])).2.prevD =
      some (intTrunc (Numeral.val ⟨false, 12, some (9, 1)⟩)) :=
  ((dotted_primary_truncates (fun v => v) {} (initState {}) _ _
      (by with_unfolding_all decide)).1).1

/-- Counterexample for claim C1: a sample that passes EmissionPolicy (a record is
emitted, counter 1) whose signal value is nevertheless *not* appended to the
spectral buffer, because the counter is not a multiple of the trigger
interval 2: the buffer stays empty. -/
theorem fft_buffer_not_appended_every_sample :
    (let args : Config := { fft_len := 4, fft_every := 2 }
     let r := runLines (fun q => q) args (initState args)
       [Line.data [("D", ⟨false, 5, none⟩)]]
     r.1.length = 1 ∧ r.2.emitted = 1 ∧ r.2.fft_buf = []) := by
  with_unfolding_all decide

/-- Amended claim C1: with spectral analysis enabled and numpy available, a
sample that passes EmissionPolicy has its selected signal value appended to
the spectral buffer iff the accepted-sample counter is a multiple of the
trigger interval; otherwise the buffer is unchanged. -/
theorem fft_buffer_appends_on_trigger_multiples (asin : ℚ → ℚ) (args : Config)
    (st : State) (D N : ℤ) (x2 y2 : Option ℚ)
    (hlen : 0 < args.fft_len) (hev : 0 < args.fft_every)
    (hnp : args.numpy_available = true)
    (hkeep : (stepData asin args st D N x2 y2).1.isSome = true) :
    (stepData asin args st D N x2 y2).2.fft_buf =
      if Int.emod (((stepData asin args st D N x2 y2).2.emitted : ℕ) : ℤ)
          args.fft_every = 0 then
        st.fft_buf ++ [match args.fft_signal with
                       | .x => (computeSample asin args st D).x
                       | .v => (computeSample asin args st D).v]
      else st.fft_buf := by
  have hk : keepSample args st (computeSample asin args st D).dD = true := by
    rw [stepData_fst] at hkeep
    by_cases h : keepSample args st (computeSample asin args st D).dD = true
    · exact h
    · rw [if_neg h] at hkeep
      simp at hkeep
  rw [stepData_snd]
  by_cases hm : Int.emod ((emittedAfter args st (computeSample asin args st D).dD : ℕ) : ℤ)
      args.fft_every = 0
  · simp [hk, hlen, hev, hnp, hm]
  · simp [hk, hlen, hev, hnp, hm]

/-- Witness for the amended theorem of C1: with trigger interval 1 the first
emitted sample is buffered. -/
theorem fft_buffer_appends_on_trigger_multiples_witness :
    (stepData (fun q => q) ({ fft_len := 4, fft_every := 1 } : Config)
        (initState ({ fft_len := 4, fft_every := 1 } : Config)) 5 0 none none).2.fft_buf =
      if Int.emod (((stepData (fun q => q) ({ fft_len := 4, fft_every := 1 } : Config)
          (initState ({ fft_len := 4, fft_every := 1 } : Config)) 5 0 none none).2.emitted :
            ℕ) : ℤ) ({ fft_len := 4, fft_every := 1 } : Config).fft_every = 0 then
        (initState ({ fft_len := 4, fft_every := 1 } : Config)).fft_buf ++
          [match ({ fft_len := 4, fft_every := 1 } : Config).fft_signal with
           | .x => (computeSample (fun q => q) ({ fft_len := 4, fft_every := 1 } : Config)
                      (initState ({ fft_len := 4, fft_every := 1 } : Config)) 5).x
           | .v => (computeSample (fun q => q) ({ fft_len := 4, fft_every := 1 } : Config)
                      (initState ({ fft_len := 4, fft_every := 1 } : Config)) 5).v]
      else (initState ({ fft_len := 4, fft_every := 1 } : Config)).fft_buf :=
  fft_buffer_appends_on_trigger_multiples (fun q => q) _ _ 5 0 none none
    (by decide) (by decide) rfl (by with_unfolding_all decide)

/-- Claim C2: the import block of `umd2.py` binds no name `os`, yet the
logging setup dereferences `os.path.exists`; configuring a log path
therefore raises `NameError` instead of opening the log in append mode. -/
theorem os_module_not_imported : umd2_top_level_imports.contains "os" = false := by
  with_unfolding_all decide

/-! ### Moving-average history -/

lemma lastN_nil (w : ℕ) : lastN w [] = [] := by
  simp [lastN]

lemma lastN_length (w : ℕ) (l : List ℚ) : (lastN w l).length = min l.length w := by
  simp only [lastN, List.length_drop]
  omega

lemma lastN_append_lastN (w : ℕ) (T U : List ℚ) :
    lastN w (lastN w T ++ U) = lastN w (T ++ U) := by
  unfold lastN
  rw [List.drop_append_eq_append_drop, List.drop_append_eq_append_drop, List.drop_drop]
  simp only [List.length_append, List.length_drop]
  congr 1
  · congr 1
    omega
  · congr 1
    omega

lemma computeSample_maBuf_pos (asin : ℚ → ℚ) (args : Config) (st : State) (D : ℤ)
    (hw : 0 < args.ma_window) :
    (computeSample asin args st D).maBuf =
      lastN args.ma_window.toNat (st.ma_buf ++ [(computeSample asin args st D).x]) := by
  have h : (computeSample asin args st D).maBuf =
      if 0 < args.ma_window then
        lastN args.ma_window.toNat (st.ma_buf ++ [(computeSample asin args st D).x])
      else st.ma_buf := rfl
  rw [h, if_pos hw]

lemma computeSample_maRep_pos (asin : ℚ → ℚ) (args : Config) (st : State) (D : ℤ)
    (hw : 0 < args.ma_window) :
    (computeSample asin args st D).maRep =
      some ((computeSample asin args st D).maBuf.sum /
        (((computeSample asin args st D).maBuf.length : ℕ) : ℚ)) := by
  have h : (computeSample asin args st D).maRep =
      if 0 < args.ma_window then
        some ((computeSample asin args st D).maBuf.sum /
          (((computeSample asin args st D).maBuf.length : ℕ) : ℚ))
      else none := rfl
  rw [h, if_pos hw]

lemma stepState_header_ma (asin : ℚ → ℚ) (args : Config) (st : State) (ip : ℕ)
    (frac : Option (ℕ × ℕ)) :
    (stepState asin args st (.header ip frac)).ma_buf = st.ma_buf := by
  rw [stepState, stepLine_header]
  split <;> rfl

lemma stepData_snd_ma (asin : ℚ → ℚ) (args : Config) (st : State) (D N : ℤ)
    (x2 y2 : Option ℚ) :
    (stepData asin args st D N x2 y2).2.ma_buf = (computeSample asin args st D).maBuf := rfl

lemma runLines_ma_invariant (asin : ℚ → ℚ) (args : Config) (hw : 0 < args.ma_window) :
    ∀ (ls : List Line) (st : State) (T : List ℚ),
      st.ma_buf = lastN args.ma_window.toNat T →
      (runLines asin args st ls).2.ma_buf =
        lastN args.ma_window.toNat (T ++ xTrace asin args st ls) := by
  intro ls
  induction ls with
  | nil =>
      intro st T h
      simpa [xTrace] using h
  | cons l ls ih =>
      intro st T h
      rw [runLines_cons_snd, xTrace]
      cases l with
      | header ip frac =>
          have hb := stepState_header_ma asin args st ip frac
          simp only [lineX, List.nil_append]
          exact ih _ T (by rw [hb, h])
      | data toks =>
          cases hp : primary (parse_line_tokens toks) with
          | none =>
              have hst := stepState_data_none asin args st toks hp
              simp only [lineX, hp, List.nil_append, hst]
              exact ih _ T h
          | some q =>
              have hst := stepState_data_some asin args st toks q hp
              have hb : (stepState asin args st (.data toks)).ma_buf =
                  lastN args.ma_window.toNat
                    (T ++ [(computeSample asin args st (intTrunc q)).x]) := by
                rw [hst, stepData_snd_ma,
                  computeSample_maBuf_pos asin args st (intTrunc q) hw, h,
                  lastN_append_lastN]
              have hx : lineX asin args st (.data toks) =
                  [(computeSample asin args st (intTrunc q)).x] := by
                simp [lineX, hp]
              rw [hx, ← List.append_assoc]
              exact ih _ _ hb

/-- Claim C7: with a positive moving-average window, after any run the history is
exactly the newest `min(samples so far, window)` cumulative-displacement
values (the window-sized suffix of the trace of processed samples), its
length never exceeds the window, and every processed sample reports the MA
value as the arithmetic mean of the history. -/
theorem ma_history_is_recent_window (asin : ℚ → ℚ) (args : Config)
    (hw : 0 < args.ma_window) :
    (∀ ls : List Line,
      (runLines asin args (initState args) ls).2.ma_buf =
        lastN args.ma_window.toNat (xTrace asin args (initState args) ls) ∧
      (runLines asin args (initState args) ls).2.ma_buf.length =
        min (xTrace asin args (initState args) ls).length args.ma_window.toNat ∧
      (runLines asin args (initState args) ls).2.ma_buf.length ≤ args.ma_window.toNat) ∧
    (∀ st D, (computeSample asin args st D).maRep =
      some ((computeSample asin args st D).maBuf.sum /
        (((computeSample asin args st D).maBuf.length : ℕ) : ℚ))) := by
  refine ⟨fun ls => ?_, fun st D => computeSample_maRep_pos asin args st D hw⟩
  have hbase : (initState args).ma_buf = lastN args.ma_window.toNat [] := by
    simp [initState, lastN_nil]
  have hmain := runLines_ma_invariant asin args hw ls (initState args) [] hbase
  rw [List.nil_append] at hmain
  refine ⟨hmain, ?_, ?_⟩
  · rw [hmain, lastN_length]
  · rw [hmain, lastN_length]
    exact Nat.min_le_right _ _

/-- Witness for C7 at a concrete window and run. -/
theorem ma_history_is_recent_window_witness :
    (runLines (fun q => q) ({ ma_window := 2, stepnm := some 1 } : Config)
        (initState ({ ma_window := 2, stepnm := some 1 } : Config))
        ([1, 2, 3].map (fun i => Line.data [("D", ⟨false, i, none⟩)]))).2.ma_buf =
      lastN (({ ma_window := 2, stepnm := some 1 } : Config)).ma_window.toNat
        (xTrace (fun q => q) ({ ma_window := 2, stepnm := some 1 } : Config)
          (initState ({ ma_window := 2, stepnm := some 1 } : Config))
          ([1, 2, 3].map (fun i => Line.data [("D", ⟨false, i, none⟩)]))) :=
  ((ma_history_is_recent_window (fun q => q)
      ({ ma_window := 2, stepnm := some 1 } : Config) (by decide)).1 _).1

end Umd2
